import Mathlib

/-!
Shallow embedding of `astroid/interpreter/objects.py` (inference objects:
instances, bound/unbound methods, super proxies) together with the external
capabilities it consumes (class descriptors, inference contexts, statement
inference), and proofs of the attribute-resolution properties stated about it.

Source functions are translated clause by clause; the external collaborators
(`ClassDef.instance_attr`, `ClassDef.getattr`, `ClassDef.igetattr`,
`infer_stmts`, function-body call-result inference, node inference and
constant truth values) are not part of the translated file and are modelled
as oracle fields of an `Env` structure, universally quantified in every
theorem.  Python exceptions become an `Except` value; generator bodies become
list-producing functions (a raised exception discards the values yielded
before it, which is adequate for the all-or-nothing error properties proved
here).
-/

namespace Astroid

/-- Classes declared in the analysed program are identified by an id;
their structure (locals, mro, instance attributes) lives in the `Env`
oracles, mirroring the external `ClassDef` capability. -/
abbrev ClassId := Nat

/-- `BUILTINS = six.moves.builtins.__name__` (Python 3 spelling). -/
def BUILTINS : String := "builtins"

/-- `BOOL_SPECIAL_METHOD` for Python 3. -/
def BOOL_SPECIAL_METHOD : String := "__bool__"

/-- `PROPERTIES = {BUILTINS + '.property', 'abc.abstractproperty'}`. -/
def PROPERTIES : List String := [BUILTINS ++ ".property", "abc.abstractproperty"]

/-- `POSSIBLE_PROPERTIES`: suffix-matched heuristic property decorator names. -/
def POSSIBLE_PROPERTIES : List String :=
  ["cached_property", "cachedproperty", "lazyproperty", "lazy_property", "reify",
   "lazyattribute", "lazy_attribute", "LazyProperty", "lazy"]

/-- The exception kinds raised by `objects.py` and its collaborators
(`astroid.exceptions`).  `attributeInferenceError` and `inferenceError`
carry the optional originating error, mirroring how the source re-raises
one exception built from another (`InferenceError(**vars(error))`,
`AttributeInferenceError(..., super_=exc.super_)`).  `stopIteration`
models a bare `next()` on an exhausted iterator. -/
inductive Exc where
  | attributeInferenceError (orig : Option Exc)
  | inferenceError (orig : Option Exc)
  | superError
  | mroError
  | stopIteration

/-- `isinstance(e, exceptions.AttributeInferenceError)`. -/
def Exc.isAttributeInferenceError : Exc → Bool
  | .attributeInferenceError _ => true
  | _ => false

/-- `isinstance(e, exceptions.InferenceError)` for the catch clauses of
`Instance.bool_value` (in astroid, `AttributeInferenceError` is a separate
kind listed alongside it in those clauses, so this tests the exact kind). -/
def Exc.isInferenceError : Exc → Bool
  | .inferenceError _ => true
  | _ => false

/-- The runtime/AST values flowing through attribute resolution.

* `functionDef` : a `FunctionDef` statement; `ftype` is astroid's
  `FunctionDef.type` (`"method"`, `"classmethod"`, `"staticmethod"`,
  `"function"`), `decoratornames` its `decoratornames()` result (`none`
  standing for an `Uninferable` entry), `parentFrameQname` the qualified
  name of `parent.frame()`.
* `lambdaNode` : a `Lambda` (astroid gives it `name == '<lambda>'`);
  `inClassBody` is `isinstance(attr.statement().scope(), ClassDef)` and
  `argNames` the parameter names `attr.args.args`.
* `unboundMethod` / `boundMethod` : the `UnboundMethod` / `BoundMethod`
  proxies over a function, `boundMethod` carrying its receiver.
* `instanceN` / `classNode` : an `Instance` of a class / the `ClassDef`
  itself.
* `superN` : a `Super` proxy (used when a super object is passed around as
  a value, e.g. as the `frame`/caller of an inference).
* `uninferable` : the `util.Uninferable` sentinel.
* `other` : any other node (constants, assignments, ...), opaque here. -/
inductive Node where
  | functionDef (fid : Nat) (fname : String) (ftype : String)
      (decoratornames : List (Option String)) (parentFrameQname : String)
  | lambdaNode (lid : Nat) (inClassBody : Bool) (argNames : List String)
  | unboundMethod (proxied : Node)
  | boundMethod (proxied : Node) (bound : Node)
  | instanceN (cls : ClassId)
  | classNode (cls : ClassId)
  | superN (ty ptr : Node) (classBased : Bool) (scope : Node)
  | uninferable
  | other (oid : Nat)
deriving DecidableEq

/-- Truth values returned by `bool_value()`: Python `True`, `False`, or the
`Uninferable` sentinel. -/
inductive PyBool where
  | pyTrue
  | pyFalse
  | pyUninferable
deriving DecidableEq

/-- Modelled from the spec: the external `InferenceContext` capability —
`path` is the visited set of (class, attribute-name) pairs used as the
recursion guard, `boundnode` and `callcontext` the two mutable fields the
source assigns.  `clone` copies the context (value semantics). -/
structure Ctx where
  path : List (ClassId × String)
  boundnode : Option Node
  callcontext : Option (List Node)
deriving DecidableEq

/-- Modelled from the spec: `context.push(elem)` returns `True` (and leaves
the context unchanged) when `elem` was already visited, else records it and
returns `False`. -/
def Ctx.push (c : Ctx) (p : ClassId × String) : Bool × Ctx :=
  if p ∈ c.path then (true, c) else (false, { c with path := p :: c.path })

/-- Modelled from the spec: `context.clone()`; with explicit value-passing
a clone is just the current value. -/
def Ctx.clone (c : Ctx) : Ctx := c

/-- A fresh `InferenceContext()`. -/
def Ctx.fresh : Ctx := { path := [], boundnode := none, callcontext := none }

/-- The `frame` argument handed to `infer_stmts`: the requesting object
(`frame=self`), either an instance of a class or a super proxy. -/
inductive Frame where
  | instFrame (c : ClassId)
  | superFrame (s : Node)

/-- The external capabilities `objects.py` calls into, as oracles:
* `instance_attr c n ctx` — `ClassDef.instance_attr(name, context)`;
* `cls_getattr c n ctx` — `ClassDef.getattr(name, context, class_context=False)`;
* `cls_igetattr c n ctx` — `ClassDef.igetattr(name, context, class_context=False)`;
* `infer_stmts stmts ctx frame` — `interpreter.util.infer_stmts`;
* `fun_infer_call_result f caller ctx` — `FunctionDef.infer_call_result`;
* `generic_infer_call_result m caller ctx` — `infer_call_result` of callables
  other than the method/function proxies translated here;
* `object_new_result caller` — the value of the special-cased
  `object.__new__` branch of `UnboundMethod.infer_call_result` (inference of
  the caller's first argument, context-free in the source);
* `node_infer v ctx` — `v.infer(context)` (the external dispatcher);
* `node_bool_value v` — `v.bool_value()` for inferred result nodes;
* `newstyle`, `mro`, `locals` — the remaining `ClassDef` surface
  (`locals c n` gives the declaration list for a name, `none` when absent);
* `instance_special_attributes` / `super_special_attributes` — the
  `objectmodel` special-attribute tables of `Instance` and `Super`. -/
structure Env where
  instance_attr : ClassId → String → Option Ctx → Except Exc (List Node)
  cls_getattr : ClassId → String → Option Ctx → Except Exc (List Node)
  cls_igetattr : ClassId → String → Option Ctx → Except Exc (List Node)
  infer_stmts : List Node → Option Ctx → Frame → Except Exc (List Node)
  fun_infer_call_result : Node → Node → Option Ctx → Except Exc (List Node)
  generic_infer_call_result : Node → Node → Option Ctx → Except Exc (List Node)
  object_new_result : Node → Except Exc (List Node)
  node_infer : Node → Option Ctx → Except Exc (List Node)
  node_bool_value : Node → PyBool
  newstyle : ClassId → Bool
  mro : ClassId → Except Exc (List ClassId)
  locals : ClassId → String → Option (List Node)
  instance_special_attributes : List (String × Node)
  super_special_attributes : List (String × Node)

/-- `name in special_attributes` / `special_attributes.lookup(name)` on an
`objectmodel` table. -/
def lookupSpecial (table : List (String × Node)) (name : String) : Option Node :=
  (table.find? (fun p => p.1 == name)).map (·.2)

/-- `meth.decoratornames()`: a `FunctionDef` answers directly; the
`UnboundMethod`/`BoundMethod` proxies forward to their `_proxied` function
(the `Proxy.__getattr__` delegation). -/
def decoratornames : Node → List (Option String)
  | .functionDef _ _ _ decs _ => decs
  | .unboundMethod p => decoratornames p
  | .boundMethod p _ => decoratornames p
  | _ => []

/-- `is_property(meth)` (source lines 68-73): true when the exact qualified
allow-list `PROPERTIES` intersects `meth.decoratornames()`, or when some
`POSSIBLE_PROPERTIES` name equals the last dot-component of a (non-
`Uninferable`) decorator name. -/
def is_property (meth : Node) : Bool :=
  let decs := decoratornames meth
  if PROPERTIES.any (fun p => decs.contains (some p)) then true
  else
    let stripped := (decs.filterMap id).map (fun n => (n.splitOn ".").getLastD "")
    POSSIBLE_PROPERTIES.any (fun n => stripped.contains n)

/-- `BaseInstance.getattr(name, context, lookupclass)` (source lines
120-144), for an `Instance` whose proxied class is `self`:
instance-level lookup first; on `AttributeInferenceError` try the
special-attribute table, then (when `lookupclass`) the class-level lookup,
else re-raise; on success with `lookupclass`, concatenate the class-level
matches, swallowing an `AttributeInferenceError` from that second lookup. -/
def getattr (env : Env) (self : ClassId) (name : String) (context : Option Ctx)
    (lookupclass : Bool) : Except Exc (List Node) :=
  match env.instance_attr self name context with
  | .ok values =>
      if lookupclass then
        match env.cls_getattr self name context with
        | .ok cvals => .ok (values ++ cvals)
        | .error e => if e.isAttributeInferenceError then .ok values else .error e
      else .ok values
  | .error e =>
      if e.isAttributeInferenceError then
        match lookupSpecial env.instance_special_attributes name with
        | some node => .ok [node]
        | none =>
            if lookupclass then env.cls_getattr self name context
            else .error (.attributeInferenceError none)
      else .error e

/-- The guard of the special case in `UnboundMethod.infer_call_result`
(source lines 312-313): the proxied function is `__new__` of the builtin
`object` class. -/
def is_object_new : Node → Bool
  | .functionDef _ fname _ _ pq => fname == "__new__" && pq == BUILTINS ++ ".object"
  | _ => false

/-- `UnboundMethod.infer_call_result(caller, context)` (source lines
309-316): the `object.__new__` branch builds instances of the caller's
inferred first argument (external inference, context-free — kept as the
`object_new_result` oracle); otherwise delegate to the proxied function's
own call-result inference. -/
def UnboundMethod.infer_call_result (env : Env) (proxied : Node) (caller : Node)
    (context : Option Ctx) : Except Exc (List Node) :=
  if is_object_new proxied then env.object_new_result caller
  else env.fun_infer_call_result proxied caller context

/-- `BoundMethod.infer_call_result(caller, context)` (source lines 335-340):
create a fresh context when absent, clone it, set `boundnode` to the bound
receiver, and delegate to the `UnboundMethod` behaviour. -/
def BoundMethod.infer_call_result (env : Env) (proxied bound : Node) (caller : Node)
    (context : Option Ctx) : Except Exc (List Node) :=
  let ctx := match context with
    | none => Ctx.fresh
    | some c => c
  let ctx := ctx.clone
  let ctx := { ctx with boundnode := some bound }
  UnboundMethod.infer_call_result env proxied caller (some ctx)

/-- Dispatch of `meth.infer_call_result(caller, context)` over the node
kinds: the method proxies and plain functions use the definitions above;
every other callable's call-result inference (e.g. `BaseInstance`'s
`__call__` lookup, `Lambda` bodies) is outside the properties proved here
and is the `generic_infer_call_result` oracle. -/
def node_infer_call_result (env : Env) (meth caller : Node) (context : Option Ctx) :
    Except Exc (List Node) :=
  match meth with
  | .boundMethod p b => BoundMethod.infer_call_result env p b caller context
  | .unboundMethod p => UnboundMethod.infer_call_result env p caller context
  | .functionDef fid fname ftype decs pq =>
      env.fun_infer_call_result (.functionDef fid fname ftype decs pq) caller context
  | m => env.generic_infer_call_result m caller context

/-- `hasattr(meth, 'infer_call_result')`: true for functions, lambdas, the
method proxies, instances and super proxies; false for plain nodes.
(`util.Uninferable` answers every attribute with itself, hence `true`; the
callers below additionally test the value's truthiness, and `Uninferable`
is falsy.) -/
def has_infer_call_result : Node → Bool
  | .functionDef .. => true
  | .lambdaNode .. => true
  | .unboundMethod _ => true
  | .boundMethod .. => true
  | .instanceN _ => true
  | .superN .. => true
  | .uninferable => true
  | .classNode _ => true
  | .other _ => false

/-- `Instance.callable()` (source lines 221-226): the class exposes
`__call__` outside instance context; `AttributeInferenceError` means
`False`. -/
def Instance.callable (env : Env) (self : ClassId) : Except Exc Bool :=
  match env.cls_getattr self "__call__" none with
  | .ok _ => .ok true
  | .error e => if e.isAttributeInferenceError then .ok false else .error e

/-- `meth.callable()` over the node kinds: functions, lambdas, method
proxies and classes are callable; instances ask their class for
`__call__`; plain nodes and super proxies are not callable;
`Uninferable.callable()` returns the (truthy) sentinel itself. -/
def node_callable (env : Env) : Node → Except Exc Bool
  | .instanceN c => Instance.callable env c
  | .functionDef .. => .ok true
  | .lambdaNode .. => .ok true
  | .unboundMethod _ => .ok true
  | .boundMethod .. => .ok true
  | .classNode _ => .ok true
  | .uninferable => .ok true
  | .superN .. => .ok false
  | .other _ => .ok false

/-- `BaseInstance._wrap_attr` on one attribute (source lines 170-191).
`isinstance(attr, UnboundMethod)` holds for both method proxies
(`BoundMethod` subclasses `UnboundMethod`): a property-like method yields
its inferred call results, any other method is re-wrapped as a
`BoundMethod` of its proxied function attached to the instance.  A lambda
declared in a class body whose first parameter is named `self` becomes a
`BoundMethod`; everything else passes through unchanged. -/
def wrap_attr_one (env : Env) (self : ClassId) (context : Option Ctx) :
    Node → Except Exc (List Node)
  | .unboundMethod p =>
      if is_property (.unboundMethod p) then
        node_infer_call_result env (.unboundMethod p) (.instanceN self) context
      else .ok [.boundMethod p (.instanceN self)]
  | .boundMethod p b =>
      if is_property (.boundMethod p b) then
        node_infer_call_result env (.boundMethod p b) (.instanceN self) context
      else .ok [.boundMethod p (.instanceN self)]
  | .lambdaNode lid inClassBody argNames =>
      if inClassBody then
        match argNames with
        | a :: rest =>
            if a == "self" then
              .ok [.boundMethod (.lambdaNode lid inClassBody (a :: rest)) (.instanceN self)]
            else .ok [.lambdaNode lid inClassBody (a :: rest)]
        | [] => .ok [.lambdaNode lid inClassBody []]
      else .ok [.lambdaNode lid inClassBody argNames]
  | attr => .ok [attr]

/-- `BaseInstance._wrap_attr` over the whole attribute sequence; an
exception raised while wrapping aborts the sequence (generator semantics,
collapsed to all-or-nothing). -/
def wrap_attr (env : Env) (self : ClassId) (attrs : List Node) (context : Option Ctx) :
    Except Exc (List Node) :=
  match attrs with
  | [] => .ok []
  | a :: rest =>
      match wrap_attr_one env self context a with
      | .error e => .error e
      | .ok x =>
          match wrap_attr env self rest context with
          | .error e => .error e
          | .ok xs => .ok (x ++ xs)

/-- The body of the outer `try` of `BaseInstance.igetattr` (source lines
156-159): instance-level `getattr` with `lookupclass=False`, wrapped by
`_wrap_attr`, threaded through `infer_stmts` with the instance as frame. -/
def igetattr_first_path (env : Env) (self : ClassId) (name : String) (ctx : Ctx) :
    Except Exc (List Node) :=
  match getattr env self name (some ctx) false with
  | .error e => .error e
  | .ok attrs =>
      match wrap_attr env self attrs (some ctx) with
      | .error e => .error e
      | .ok wrapped => env.infer_stmts wrapped (some ctx) (Frame.instFrame self)

/-- The fallback of `BaseInstance.igetattr` (source lines 161-166): the
class descriptor's own `igetattr` outside class context, re-wrapped. -/
def igetattr_fallback (env : Env) (self : ClassId) (name : String) (ctx : Ctx) :
    Except Exc (List Node) :=
  match env.cls_igetattr self name (some ctx) with
  | .error e => .error e
  | .ok attrs => wrap_attr env self attrs (some ctx)

/-- `BaseInstance.igetattr(name, context)` (source lines 146-168): create a
context when absent; push `(proxied class, name)` on the recursion guard
and yield nothing when already visited; otherwise run the instance-level
path, and on `AttributeInferenceError` run the class fallback, whose own
`AttributeInferenceError` is re-raised as `InferenceError` built from it.
The (mutated) context is returned alongside the yielded values. -/
def igetattr (env : Env) (self : ClassId) (name : String) (context : Option Ctx) :
    Except Exc (List Node × Ctx) :=
  let ctx := match context with
    | none => Ctx.fresh
    | some c => c
  match ctx.push (self, name) with
  | (true, ctx2) => .ok ([], ctx2)
  | (false, ctx2) =>
      match igetattr_first_path env self name ctx2 with
      | .ok stmts => .ok (stmts, ctx2)
      | .error e =>
          if e.isAttributeInferenceError then
            match igetattr_fallback env self name ctx2 with
            | .ok stmts => .ok (stmts, ctx2)
            | .error e2 =>
                if e2.isAttributeInferenceError then .error (.inferenceError (some e2))
                else .error e2
          else .error e

/-- `_infer_method_result_truth(instance, method_name, context)` (source
lines 96-109): take the first value of `igetattr`; when it is a truthy
object with `infer_call_result`, require it callable (else `Uninferable`),
take the first inferred call value (none ⇒ `Uninferable`, the sentinel ⇒
`Uninferable`), infer it (`next` on an empty inference raising
`StopIteration`) and return that result's truth value. -/
def infer_method_result_truth (env : Env) (self : ClassId) (method_name : String)
    (context : Ctx) : Except Exc PyBool :=
  match igetattr env self method_name (some context) with
  | .error e => .error e
  | .ok (vals, ctx2) =>
      match vals.head? with
      | none => .ok .pyUninferable
      | some meth =>
          if meth != .uninferable && has_infer_call_result meth then
            match node_callable env meth with
            | .error e => .error e
            | .ok false => .ok .pyUninferable
            | .ok true =>
                match node_infer_call_result env meth (.instanceN self) (some ctx2) with
                | .error e => .error e
                | .ok [] => .ok .pyUninferable
                | .ok (value :: _) =>
                    if value == .uninferable then .ok .pyUninferable
                    else
                      match env.node_infer value (some ctx2) with
                      | .error e => .error e
                      | .ok [] => .error .stopIteration
                      | .ok (inferred :: _) => .ok (env.node_bool_value inferred)
          else .ok .pyUninferable

/-- The context built at the start of `Instance.bool_value` (source lines
244-245): a fresh `InferenceContext` whose `callcontext` carries the
instance as sole call argument. -/
def bool_value_context (self : ClassId) : Ctx :=
  { path := [], boundnode := none, callcontext := some [Node.instanceN self] }

/-- `Instance.bool_value()` (source lines 231-255): probe
`BOOL_SPECIAL_METHOD` with a context whose call arguments are `[self]`; on
`InferenceError`/`AttributeInferenceError` probe `__len__`; when that also
raises one of the two kinds, default to `True`. -/
def Instance.bool_value (env : Env) (self : ClassId) : Except Exc PyBool :=
  let context : Ctx := bool_value_context self
  match infer_method_result_truth env self BOOL_SPECIAL_METHOD context with
  | .ok result => .ok result
  | .error e =>
      if e.isInferenceError || e.isAttributeInferenceError then
        match infer_method_result_truth env self "__len__" context with
        | .ok result => .ok result
        | .error e2 =>
            if e2.isAttributeInferenceError || e2.isInferenceError then .ok .pyTrue
            else .error e2
      else .error e

/-- The `Super` proxy (source lines 392-414): `type` is the second super
argument (`mro_type`), `mro_pointer` the first, `_class_based` starts
`False` and is set by `super_mro`, `_self_class` the class enclosing the
call, `_scope` the enclosing function. -/
structure SuperObj where
  type : Node
  mro_pointer : Node
  _class_based : Bool
  _self_class : Option ClassId
  _scope : Node
deriving DecidableEq

/-- `Super.__init__(mro_pointer, mro_type, self_class, scope)`. -/
def Super.init (mro_pointer mro_type : Node) (self_class : Option ClassId)
    (scope : Node) : SuperObj :=
  SuperObj.mk mro_type mro_pointer false self_class scope

/-- A `Super` object handed around as a value (the `frame`/`caller` of an
inference). -/
def SuperObj.toNode (s : SuperObj) : Node :=
  .superN s.type s.mro_pointer s._class_based s._scope

/-- `getattr(self.type, '_proxied', None)` (source line 428): instances
expose their class, the method proxies their function; other nodes have no
`_proxied` (the super proxy's own `_proxied`, the builtin `super` class,
is external and never a well-formed second argument, kept absent here). -/
def getProxied : Node → Option Node
  | .instanceN c => some (.classNode c)
  | .unboundMethod p => some p
  | .boundMethod p _ => some p
  | _ => none

/-- `Super.super_mro()` (source lines 416-446), returning the MRO slice
together with the updated `_class_based` flag.  In order: `mro_pointer`
must be a `ClassDef`; a `ClassDef` second argument sets `_class_based` and
is the MRO provider, otherwise the second argument's `_proxied` must be an
instance or `ClassDef`; the provider must be new-style; `mro_pointer` must
occur in the provider's MRO (an instance provider forwards `newstyle` and
`mro()` to its class); the result is the MRO strictly after the first
occurrence of `mro_pointer`. -/
def super_mro (env : Env) (s : SuperObj) : Except Exc (List ClassId × Bool) :=
  match s.mro_pointer with
  | .classNode pointer =>
      let mroProvider : Except Exc (ClassId × Bool) :=
        match s.type with
        | .classNode c => .ok (c, true)
        | t =>
            match getProxied t with
            | some (.classNode c) => .ok (c, s._class_based)
            | some (.instanceN c) => .ok (c, s._class_based)
            | _ => .error .superError
      match mroProvider with
      | .error e => .error e
      | .ok (mroTypeC, class_based) =>
          if env.newstyle mroTypeC then
            match env.mro mroTypeC with
            | .error e => .error e
            | .ok mroList =>
                if pointer ∈ mroList then
                  .ok (mroList.drop (mroList.indexOf pointer + 1), class_based)
                else .error .superError
          else .error .superError
  | _ => .error .superError

/-- `self._scope.type` (astroid `FunctionDef.type`). -/
def scope_type : Node → String
  | .functionDef _ _ ftype _ _ => ftype
  | _ => ""

/-- The descriptor re-classification of one inferred value in
`Super.igetattr` (source lines 498-515): non-functions pass through; a
classmethod becomes a `BoundMethod` bound to the declaring class; a plain
method inside a classmethod-typed scope stays unchanged; class-based super
usage and staticmethods stay unchanged; a property-like function yields
its inferred call results; any other function becomes a `BoundMethod`
bound to the declaring class. -/
def super_classify (env : Env) (s : SuperObj) (class_based : Bool) (cls : ClassId)
    (context : Option Ctx) (inferred : Node) : Except Exc (List Node) :=
  match inferred with
  | .functionDef fid fname ftype decs pq =>
      let f := Node.functionDef fid fname ftype decs pq
      if ftype == "classmethod" then .ok [.boundMethod f (.classNode cls)]
      else if scope_type s._scope == "classmethod" && ftype == "method" then .ok [f]
      else if class_based || ftype == "staticmethod" then .ok [f]
      else if is_property f then env.fun_infer_call_result f s.toNode context
      else .ok [.boundMethod f (.classNode cls)]
  | attr => .ok [attr]

/-- `super_classify` over all values inferred from one declaration. -/
def super_classify_all (env : Env) (s : SuperObj) (class_based : Bool) (cls : ClassId)
    (context : Option Ctx) (vals : List Node) : Except Exc (List Node) :=
  match vals with
  | [] => .ok []
  | v :: rest =>
      match super_classify env s class_based cls context v with
      | .error e => .error e
      | .ok x =>
          match super_classify_all env s class_based cls context rest with
          | .error e => .error e
          | .ok xs => .ok (x ++ xs)

/-- The MRO walk of `Super.igetattr` (source lines 491-515): skip classes
whose locals do not declare the name; otherwise mark found, infer the
declaration `cls[name]` (the first local statement) with the super proxy
as frame, and classify every inferred value.  Returns the yielded values
and the `found` flag. -/
def super_walk (env : Env) (s : SuperObj) (class_based : Bool) (name : String)
    (context : Option Ctx) : List ClassId → Except Exc (List Node × Bool)
  | [] => .ok ([], false)
  | cls :: rest =>
      match env.locals cls name with
      | none => super_walk env s class_based name context rest
      | some stmts =>
          match env.infer_stmts [stmts.headD Node.uninferable] context
              (Frame.superFrame s.toNode) with
          | .error e => .error e
          | .ok inferredVals =>
              match super_classify_all env s class_based cls context inferredVals with
              | .error e => .error e
              | .ok vals =>
                  match super_walk env s class_based name context rest with
                  | .error e => .error e
                  | .ok (restVals, _) => .ok (vals ++ restVals, true)

/-- `Super.igetattr(name, context)` (source lines 464-520): special
attributes short-circuit; `super_mro()`'s `SuperError` and `MroError` are
converted into an `AttributeInferenceError` carrying the original error;
then the MRO walk runs, and an unfound name raises
`AttributeInferenceError`. -/
def Super.igetattr (env : Env) (s : SuperObj) (name : String) (context : Option Ctx) :
    Except Exc (List Node) :=
  match lookupSpecial env.super_special_attributes name with
  | some v => .ok [v]
  | none =>
      match super_mro env s with
      | .error Exc.superError => .error (.attributeInferenceError (some .superError))
      | .error Exc.mroError => .error (.attributeInferenceError (some .mroError))
      | .error e => .error e
      | .ok (mroList, class_based) =>
          match super_walk env s class_based name context mroList with
          | .error e => .error e
          | .ok (vals, found) =>
              if found then .ok vals
              else .error (.attributeInferenceError none)

/-- `Super.getattr(name, context)` (source lines 522-523): the eager list
form of `igetattr`. -/
def Super.getattr (env : Env) (s : SuperObj) (name : String) (context : Option Ctx) :
    Except Exc (List Node) :=
  Super.igetattr env s name context

/-- Modelled from the spec: what a class-level property declaration does
when inferred — it either infers to a plain value, or its getter body is an
attribute access that re-enters `igetattr` on another (class, name) pair
("mutually-referential property chains").  The function-body inference that
performs the re-entry lives outside this file's source. -/
inductive ChainDecl where
  | value (v : Node)
  | propChain (c : ClassId) (n : String)
deriving DecidableEq

/-- Modelled from the spec: a finite universe of class attribute
declarations, as an association list over (class, attribute-name) pairs. -/
structure ChainEnv where
  decls : List ((ClassId × String) × ChainDecl)

/-- Look up the declaration of an attribute of a class. -/
def ChainEnv.lookup (e : ChainEnv) (p : ClassId × String) : Option ChainDecl :=
  (e.decls.find? (fun q => q.1 == p)).map (·.2)

/-- The (class, name) pairs carrying a declaration. -/
def ChainEnv.keys (e : ChainEnv) : List (ClassId × String) :=
  e.decls.map (·.1)

/-- Modelled from the spec: `BaseInstance.igetattr` specialised to the
property-chain recursion, with explicit fuel.  The guard is the source's
(lines 150-153): push `(proxied class, name)`; a pair already on the
context's visited path yields nothing.  A property declaration recurses
into `igetattr` of the chained pair with the same (grown) context; the
visited path is threaded through and returned.  `none` means the fuel ran
out before the function returned — the termination theorem shows enough
fuel always exists. -/
def igetattrChain (e : ChainEnv) : Nat → List (ClassId × String) → ClassId → String →
    Option (List Node × List (ClassId × String))
  | 0, _, _, _ => none
  | fuel + 1, path, c, n =>
      if (c, n) ∈ path then some ([], path)
      else
        let path2 := (c, n) :: path
        match e.lookup (c, n) with
        | none => some ([], path2)
        | some (.value v) => some ([v], path2)
        | some (.propChain c2 n2) => igetattrChain e fuel path2 c2 n2

/-! Concrete programs used to instantiate the theorems below. -/

/-- A program whose classes declare nothing: every descriptor lookup fails
with a fresh `AttributeInferenceError`, statement inference is the
identity on already-inferred values, nothing is property-decorated. -/
def envEmpty : Env where
  instance_attr := fun _ _ _ => .error (.attributeInferenceError none)
  cls_getattr := fun _ _ _ => .error (.attributeInferenceError none)
  cls_igetattr := fun _ _ _ => .error (.attributeInferenceError none)
  infer_stmts := fun stmts _ _ => .ok stmts
  fun_infer_call_result := fun _ _ _ => .error (.inferenceError none)
  generic_infer_call_result := fun _ _ _ => .error (.inferenceError none)
  object_new_result := fun _ => .ok []
  node_infer := fun v _ => .ok [v]
  node_bool_value := fun _ => .pyTrue
  newstyle := fun _ => true
  mro := fun _ => .ok []
  locals := fun _ _ => none
  instance_special_attributes := []
  super_special_attributes := []

/-- A class (id 0) declaring attribute `"a"` both at instance level (value
`other 1`) and at class level (value `other 2`). -/
def env1 : Env :=
  { envEmpty with
    instance_attr := fun c n _ =>
      if c == 0 && n == "a" then .ok [.other 1]
      else .error (.attributeInferenceError none),
    cls_getattr := fun c n _ =>
      if c == 0 && n == "a" then .ok [.other 2]
      else .error (.attributeInferenceError none) }

/-- A class (id 0) declaring attribute `"a"` at instance level only; the
class-level lookup fails. -/
def env10 : Env :=
  { envEmpty with
    instance_attr := fun c n _ =>
      if c == 0 && n == "a" then .ok [.other 1]
      else .error (.attributeInferenceError none) }

/-- A method function carrying the exact property decorator
`builtins.property`. -/
def fProp : Node := .functionDef 0 "g" "method" [some (BUILTINS ++ ".property")] "mod.C"

/-- An undecorated method function. -/
def fPlain : Node := .functionDef 1 "h" "method" [] "mod.C"

/-- A `__len__` method function. -/
def fLen : Node := .functionDef 2 "__len__" "method" [] "mod.C"

/-- A program where calling `fProp` infers to `other 9`. -/
def envP : Env :=
  { envEmpty with
    fun_infer_call_result := fun f _ _ =>
      if f == fProp then .ok [.other 9] else .error (.inferenceError none) }

/-- A program refuting the universal bool-value fallback: on class 0,
`__bool__` is an instance attribute inferring to an instance of class 1
(which has no `__call__`, so the resolved `__bool__` is not callable),
while `__len__` is a bound method whose call result `other 5` has truth
value `False`. -/
def envC : Env :=
  { envEmpty with
    instance_attr := fun c n _ =>
      if c == 0 && n == BOOL_SPECIAL_METHOD then .ok [.instanceN 1]
      else if c == 0 && n == "__len__" then .ok [.boundMethod fLen (.instanceN 0)]
      else .error (.attributeInferenceError none),
    fun_infer_call_result := fun f _ _ =>
      if f == fLen then .ok [.other 5] else .error (.inferenceError none),
    node_bool_value := fun v => if v == .other 5 then .pyFalse else .pyTrue }

/-- The scope function of the super calls below (a plain method). -/
def scopeF : Node := .functionDef 7 "f" "method" [] "mod"

/-- A program with the linear chain `C(3) <- B(2) <- A(1) <- object(0)`:
class 3's MRO is `[3, 2, 1, 0]`. -/
def env3 : Env :=
  { envEmpty with
    mro := fun c => if c == 3 then .ok [3, 2, 1, 0] else .ok [c] }

/-- `super(B, C())` inside method `f` of class `C`: `mro_pointer` is class
2 (`B`), the second argument an instance of class 3 (`C`). -/
def s3 : SuperObj := Super.init (Node.classNode 2) (Node.instanceN 3) (some 3) scopeF

/-- A malformed super object: `mro_pointer` is class 9, which is not in
class 3's MRO. -/
def s5 : SuperObj := Super.init (Node.classNode 9) (Node.instanceN 3) (some 3) scopeF

/-- A cyclic pair of property declarations: attribute `"x"` of class 0 is
a property reading `self.y`, and `"y"` one reading `self.x`. -/
def chainCyc : ChainEnv :=
  ⟨[((0, "x"), .propChain 0 "y"), ((0, "y"), .propChain 0 "x")]⟩

/-- A successful association-list lookup's key is among the keys. -/
theorem lookup_assoc_mem_keys (l : List ((ClassId × String) × ChainDecl))
    (p : ClassId × String) (d : ChainDecl)
    (h : (l.find? (fun q => q.1 == p)).map (·.2) = some d) :
    p ∈ l.map (·.1) := by
  induction l with
  | nil => simp at h
  | cons a t ih =>
      by_cases hb : (a.1 == p) = true
      · have ha : a.1 = p := by simpa using hb
        simp [List.map_cons, ha]
      · rw [List.find?_cons_of_neg _ (by simpa using hb)] at h
        rw [List.map_cons]
        exact List.mem_cons_of_mem _ (ih h)

/-- A successful lookup's key is one of the environment's keys. -/
theorem ChainEnv.lookup_mem_keys (e : ChainEnv) (p : ClassId × String) (d : ChainDecl)
    (h : e.lookup p = some d) : p ∈ e.keys :=
  lookup_assoc_mem_keys e.decls p d h

/-- Visiting one more unvisited declared pair strictly shrinks the set of
declared pairs not yet on the path. -/
theorem visited_measure_lt (e : ChainEnv) (path : List (ClassId × String))
    (p : ClassId × String) (hp : p ∈ e.keys) (hnp : p ∉ path) :
    (e.keys.toFinset \ (p :: path).toFinset).card <
    (e.keys.toFinset \ path.toFinset).card := by
  apply Finset.card_lt_card
  rw [List.toFinset_cons]
  constructor
  · exact Finset.sdiff_subset_sdiff (le_refl _) (Finset.subset_insert _ _)
  · intro hsub
    have hpB : p ∈ e.keys.toFinset \ path.toFinset := by
      rw [Finset.mem_sdiff, List.mem_toFinset, List.mem_toFinset]
      exact ⟨hp, hnp⟩
    have hpA := hsub hpB
    rw [Finset.mem_sdiff] at hpA
    exact hpA.2 (Finset.mem_insert_self _ _)

/-- With fuel exceeding the number of declared pairs not yet visited, the
guarded recursion always returns. -/
theorem igetattrChain_total (e : ChainEnv) :
    ∀ (fuel : Nat) (path : List (ClassId × String)) (c : ClassId) (n : String),
      (e.keys.toFinset \ path.toFinset).card < fuel →
      (igetattrChain e fuel path c n).isSome = true := by
  intro fuel
  induction fuel with
  | zero => intro path c n h; omega
  | succ f ih =>
      intro path c n h
      by_cases hmem : (c, n) ∈ path
      · simp [igetattrChain, hmem]
      · match hl : e.lookup (c, n) with
        | none => simp [igetattrChain, hmem, hl]
        | some (ChainDecl.value v) => simp [igetattrChain, hmem, hl]
        | some (ChainDecl.propChain c2 n2) =>
            have hkey : (c, n) ∈ e.keys := ChainEnv.lookup_mem_keys e _ _ hl
            have hlt := visited_measure_lt e path (c, n) hkey hmem
            have hf : (e.keys.toFinset \ ((c, n) :: path).toFinset).card < f := by omega
            simpa [igetattrChain, hmem, hl] using ih ((c, n) :: path) c2 n2 hf

/-- C1: when a class declares attribute `name` both at instance level and
at class level, `Instance.getattr` with `lookupclass` true returns the
instance-level candidates followed by the class-level candidates, in that
order — instance attributes do not exclude class attributes. -/
theorem claim_c1 (env : Env) (self : ClassId) (name : String) (context : Option Ctx)
    (vs ws : List Node)
    (h1 : env.instance_attr self name context = .ok vs)
    (h2 : env.cls_getattr self name context = .ok ws) :
    getattr env self name context true = .ok (vs ++ ws) := by
  simp [getattr, h1, h2]

theorem claim_c1_witness :
    getattr env1 0 "a" none true = .ok [Node.other 1, Node.other 2] :=
  claim_c1 env1 0 "a" none [Node.other 1] [Node.other 2] rfl rfl

/-- C10: when the instance-level lookup succeeds but the subsequent
class-level lookup raises `AttributeInferenceError`, that error is
swallowed and exactly the instance-level values are returned. -/
theorem claim_c10 (env : Env) (self : ClassId) (name : String) (context : Option Ctx)
    (vs : List Node) (orig : Option Exc)
    (h1 : env.instance_attr self name context = .ok vs)
    (h2 : env.cls_getattr self name context = .error (.attributeInferenceError orig)) :
    getattr env self name context true = .ok vs := by
  simp [getattr, h1, h2, Exc.isAttributeInferenceError]

theorem claim_c10_witness :
    getattr env10 0 "a" none true = .ok [Node.other 1] :=
  claim_c10 env10 0 "a" none [Node.other 1] none rfl rfl

/-- C8: `BoundMethod.infer_call_result` on receiver `X` behaves exactly as
`UnboundMethod.infer_call_result` with a context whose `boundnode` is
pre-set to `X` — for a supplied context (which is cloned) and for an
absent one (a fresh context is created). -/
theorem claim_c8 (env : Env) (f X caller : Node) (ctx : Ctx) :
    BoundMethod.infer_call_result env f X caller (some ctx) =
      UnboundMethod.infer_call_result env f caller
        (some { ctx with boundnode := some X })
    ∧ BoundMethod.infer_call_result env f X caller none =
      UnboundMethod.infer_call_result env f caller
        (some { Ctx.fresh with boundnode := some X }) :=
  ⟨rfl, rfl⟩

/-- C7: an `UnboundMethod` found during `Instance.igetattr` that is
property-like is replaced by the inferred results of calling it; a
non-property method is re-wrapped as a `BoundMethod` of its function bound
to the instance; and carrying the exact allow-listed decorator
`builtins.property` makes a function property-like. -/
theorem claim_c7 (env : Env) (self : ClassId) (context : Option Ctx) (f : Node) :
    (is_property (Node.unboundMethod f) = true →
      wrap_attr_one env self context (.unboundMethod f) =
        UnboundMethod.infer_call_result env f (.instanceN self) context)
    ∧ (is_property (Node.unboundMethod f) = false →
      wrap_attr_one env self context (.unboundMethod f) =
        .ok [.boundMethod f (.instanceN self)])
    ∧ (some (BUILTINS ++ ".property") ∈ decoratornames f →
      is_property (Node.unboundMethod f) = true) := by
  refine ⟨?_, ?_, ?_⟩
  · intro h
    simp [wrap_attr_one, h, node_infer_call_result]
  · intro h
    simp [wrap_attr_one, h]
  · intro h
    simp [is_property]
    exact Or.inl ⟨BUILTINS ++ ".property", by simp [PROPERTIES], h⟩

theorem claim_c7_witness :
    wrap_attr_one envP 0 none (.unboundMethod fProp) = .ok [Node.other 9]
    ∧ wrap_attr_one envP 0 none (.unboundMethod fPlain) =
        .ok [.boundMethod fPlain (.instanceN 0)] := by
  constructor
  · have h1 := (claim_c7 envP 0 none fProp).2.2 (by simp [fProp, decoratornames])
    have h2 := (claim_c7 envP 0 none fProp).1 h1
    rw [h2]; rfl
  · exact (claim_c7 envP 0 none fPlain).2.1 rfl

/-- C9: for a name declared neither at instance level nor among the
special attributes, `getattr` with `lookupclass` false fails with
`AttributeInferenceError`; `igetattr` yields no value and fails with
`InferenceError` when the class fallback is also exhausted, and succeeds
(no failure) when the class fallback produces values. -/
theorem claim_c9 (env : Env) (self : ClassId) (name : String) (ctx : Ctx) (eI : Exc)
    (hI : ∀ c, env.instance_attr self name c = .error eI)
    (hIe : eI.isAttributeInferenceError = true)
    (hs : lookupSpecial env.instance_special_attributes name = none)
    (hpath : (self, name) ∉ ctx.path) :
    getattr env self name (some ctx) false = .error (.attributeInferenceError none)
    ∧ (∀ eC, (∀ c, env.cls_igetattr self name c = .error eC) →
        eC.isAttributeInferenceError = true →
        igetattr env self name (some ctx) = .error (.inferenceError (some eC)))
    ∧ (∀ attrs vals, (∀ c, env.cls_igetattr self name c = .ok attrs) →
        (∀ c, wrap_attr env self attrs c = .ok vals) →
        ∃ ctx2, igetattr env self name (some ctx) = .ok (vals, ctx2)) := by
  have hget : ∀ c, getattr env self name c false = .error (.attributeInferenceError none) := by
    intro c
    simp [getattr, hI c, hIe, hs]
  refine ⟨hget (some ctx), ?_, ?_⟩
  · intro eC hC hCe
    cases eC with
    | attributeInferenceError o =>
        simp [igetattr, Ctx.push, hpath, igetattr_first_path, hget,
          Exc.isAttributeInferenceError, igetattr_fallback, hC]
    | inferenceError o => simp [Exc.isAttributeInferenceError] at hCe
    | superError => simp [Exc.isAttributeInferenceError] at hCe
    | mroError => simp [Exc.isAttributeInferenceError] at hCe
    | stopIteration => simp [Exc.isAttributeInferenceError] at hCe
  · intro attrs vals hC hW
    refine ⟨{ ctx with path := (self, name) :: ctx.path }, ?_⟩
    simp [igetattr, Ctx.push, hpath, igetattr_first_path, hget,
      Exc.isAttributeInferenceError, igetattr_fallback, hC, hW]

theorem claim_c9_witness :
    getattr envEmpty 0 "zzz" (some Ctx.fresh) false =
      .error (.attributeInferenceError none)
    ∧ igetattr envEmpty 0 "zzz" (some Ctx.fresh) =
      .error (.inferenceError (some (.attributeInferenceError none))) := by
  have h := claim_c9 envEmpty 0 "zzz" Ctx.fresh (.attributeInferenceError none)
    (fun _ => rfl) rfl rfl (by simp [Ctx.fresh])
  exact ⟨h.1, h.2.1 (.attributeInferenceError none) (fun _ => rfl) rfl⟩

/-- C2: `igetattr` pushes the (proxied class, name) pair before recursing
and yields nothing when the pair is already on the context's visited path —
both for the translated `BaseInstance.igetattr` and for the fuelled
property-chain recursion modelled from the spec — and, over any finite
universe of property-chain declarations, fuel exceeding the number of
not-yet-visited declared pairs suffices for that recursion to return: the
attribute chain cannot loop, even when it refers back to itself directly
or through several hops. -/
theorem claim_c2 (e : ChainEnv) (fuel : Nat) (path : List (ClassId × String))
    (c : ClassId) (n : String) (env : Env) (ctx : Ctx) :
    ((c, n) ∈ path → igetattrChain e (fuel + 1) path c n = some ([], path))
    ∧ ((e.keys.toFinset \ path.toFinset).card < fuel →
        (igetattrChain e fuel path c n).isSome = true)
    ∧ ((c, n) ∈ ctx.path → igetattr env c n (some ctx) = .ok ([], ctx)) := by
  refine ⟨?_, fun h => igetattrChain_total e fuel path c n h, ?_⟩
  · intro h
    simp [igetattrChain, h]
  · intro h
    simp [igetattr, Ctx.push, h]

theorem claim_c2_witness :
    (igetattrChain chainCyc 3 [] 0 "x").isSome = true :=
  (claim_c2 chainCyc 3 [] 0 "x" envEmpty Ctx.fresh).2.1 (by decide)

/-- C3: `Super.super_mro()` validates in order — `mro_pointer` must be a
class, the second argument must be a class or proxy an instance-or-class,
the resolved provider must be new-style, and `mro_pointer` must occur in
the provider's MRO — raising `SuperError` as soon as a check fails; on
success it returns the MRO slice strictly after `mro_pointer`'s position
(and, for a class second argument, records class-based usage). -/
theorem claim_c3 (env : Env) (s : SuperObj) (p c : ClassId) (l : List ClassId)
    (k : Nat) :
    ((∀ q, s.mro_pointer ≠ Node.classNode q) → super_mro env s = .error .superError)
    ∧ (s.mro_pointer = .classNode p → s.type = .other k →
        super_mro env s = .error .superError)
    ∧ (s.mro_pointer = .classNode p → s.type = .instanceN c → env.newstyle c = false →
        super_mro env s = .error .superError)
    ∧ (s.mro_pointer = .classNode p → s.type = .instanceN c → env.newstyle c = true →
        env.mro c = .ok l → p ∉ l → super_mro env s = .error .superError)
    ∧ (s.mro_pointer = .classNode p → s.type = .instanceN c → env.newstyle c = true →
        env.mro c = .ok l → p ∈ l →
        super_mro env s = .ok (l.drop (l.indexOf p + 1), s._class_based))
    ∧ (s.mro_pointer = .classNode p → s.type = .classNode c → env.newstyle c = true →
        env.mro c = .ok l → p ∈ l →
        super_mro env s = .ok (l.drop (l.indexOf p + 1), true)) := by
  refine ⟨?_, ?_, ?_, ?_, ?_, ?_⟩
  · intro h
    cases hm : s.mro_pointer with
    | classNode q => exact absurd hm (h q)
    | functionDef a b c d e => simp [super_mro, hm]
    | lambdaNode a b c => simp [super_mro, hm]
    | unboundMethod a => simp [super_mro, hm]
    | boundMethod a b => simp [super_mro, hm]
    | instanceN a => simp [super_mro, hm]
    | superN a b c d => simp [super_mro, hm]
    | uninferable => simp [super_mro, hm]
    | other a => simp [super_mro, hm]
  · intro hm ht
    simp [super_mro, hm, ht, getProxied]
  · intro hm ht hns
    simp [super_mro, hm, ht, getProxied, hns]
  · intro hm ht hns hmro hnot
    simp [super_mro, hm, ht, getProxied, hns, hmro, hnot]
  · intro hm ht hns hmro hin
    simp [super_mro, hm, ht, getProxied, hns, hmro, hin]
  · intro hm ht hns hmro hin
    simp [super_mro, hm, ht, hns, hmro, hin]

theorem claim_c3_witness : super_mro env3 s3 = .ok ([1, 0], false) := by
  have h := (claim_c3 env3 s3 2 3 [3, 2, 1, 0] 0).2.2.2.2.1 rfl rfl rfl rfl (by decide)
  simpa using h

/-- C5: a malformed super usage — in particular an `mro_pointer` missing
from the resolved MRO — or a broken MRO makes `igetattr` fail with an
`AttributeInferenceError` that carries the original `SuperError` or
`MroError`, for every ordinary (non-special) attribute name: the internal
error kinds never surface. -/
theorem claim_c5 (env : Env) (s : SuperObj) (name : String) (context : Option Ctx)
    (e : Exc)
    (hs : lookupSpecial env.super_special_attributes name = none)
    (hmro : super_mro env s = .error e)
    (he : e = .superError ∨ e = .mroError) :
    Super.igetattr env s name context = .error (.attributeInferenceError (some e)) := by
  cases he with
  | inl h =>
      subst h
      simp [Super.igetattr, hs, hmro]
  | inr h =>
      subst h
      simp [Super.igetattr, hs, hmro]

theorem claim_c5_witness :
    Super.igetattr env3 s5 "attr" none =
      .error (.attributeInferenceError (some .superError)) :=
  claim_c5 env3 s5 "attr" none .superError rfl rfl (Or.inl rfl)

/-- C4: the descriptor re-classification of `Super.igetattr`: a
classmethod becomes a `BoundMethod` bound to the declaring class; a plain
method inside a classmethod scope is yielded unchanged; class-based usage
or a staticmethod is yielded unchanged; a property-like function yields
its inferred call results; any other function becomes a `BoundMethod`
bound to the declaring class; non-function values pass through. -/
theorem claim_c4 (env : Env) (s : SuperObj) (class_based : Bool) (cls : ClassId)
    (context : Option Ctx) (fid : Nat) (fname ftype : String)
    (decs : List (Option String)) (pq : String) (attr : Node) :
    (ftype = "classmethod" →
      super_classify env s class_based cls context (.functionDef fid fname ftype decs pq) =
        .ok [.boundMethod (.functionDef fid fname ftype decs pq) (.classNode cls)])
    ∧ (ftype = "method" → scope_type s._scope = "classmethod" →
      super_classify env s class_based cls context (.functionDef fid fname ftype decs pq) =
        .ok [.functionDef fid fname ftype decs pq])
    ∧ (ftype = "staticmethod" →
      super_classify env s class_based cls context (.functionDef fid fname ftype decs pq) =
        .ok [.functionDef fid fname ftype decs pq])
    ∧ (class_based = true → ftype ≠ "classmethod" →
      super_classify env s class_based cls context (.functionDef fid fname ftype decs pq) =
        .ok [.functionDef fid fname ftype decs pq])
    ∧ (ftype ≠ "classmethod" → ¬(scope_type s._scope = "classmethod" ∧ ftype = "method") →
        class_based = false → ftype ≠ "staticmethod" →
        is_property (.functionDef fid fname ftype decs pq) = true →
      super_classify env s class_based cls context (.functionDef fid fname ftype decs pq) =
        env.fun_infer_call_result (.functionDef fid fname ftype decs pq) s.toNode context)
    ∧ (ftype ≠ "classmethod" → ¬(scope_type s._scope = "classmethod" ∧ ftype = "method") →
        class_based = false → ftype ≠ "staticmethod" →
        is_property (.functionDef fid fname ftype decs pq) = false →
      super_classify env s class_based cls context (.functionDef fid fname ftype decs pq) =
        .ok [.boundMethod (.functionDef fid fname ftype decs pq) (.classNode cls)])
    ∧ ((∀ a b c d e, attr ≠ Node.functionDef a b c d e) →
      super_classify env s class_based cls context attr = .ok [attr]) := by
  refine ⟨?_, ?_, ?_, ?_, ?_, ?_, ?_⟩
  · intro h
    subst h
    simp [super_classify]
  · intro h hsc
    subst h
    simp [super_classify, hsc]
  · intro h
    subst h
    by_cases hsc : scope_type s._scope = "classmethod"
    · simp [super_classify, hsc]
    · simp [super_classify, hsc]
  · intro hcb hne
    subst hcb
    by_cases hm : ftype = "method"
    · subst hm
      by_cases hsc : scope_type s._scope = "classmethod"
      · simp [super_classify, hsc]
      · simp [super_classify, hsc]
    · simp [super_classify, hne, hm]
  · intro hne hnm hcb hst hp
    subst hcb
    by_cases hm : ftype = "method"
    · subst hm
      have hsc : ¬scope_type s._scope = "classmethod" := fun hh => hnm ⟨hh, rfl⟩
      simp [super_classify, hne, hsc, hst, hp]
    · simp [super_classify, hne, hm, hst, hp]
  · intro hne hnm hcb hst hp
    subst hcb
    by_cases hm : ftype = "method"
    · subst hm
      have hsc : ¬scope_type s._scope = "classmethod" := fun hh => hnm ⟨hh, rfl⟩
      simp [super_classify, hne, hsc, hst, hp]
    · simp [super_classify, hne, hm, hst, hp]
  · intro h
    cases attr with
    | functionDef a b c d e => exact absurd rfl (h a b c d e)
    | lambdaNode a b c => simp [super_classify]
    | unboundMethod a => simp [super_classify]
    | boundMethod a b => simp [super_classify]
    | instanceN a => simp [super_classify]
    | classNode a => simp [super_classify]
    | superN a b c d => simp [super_classify]
    | uninferable => simp [super_classify]
    | other a => simp [super_classify]

theorem claim_c4_witness :
    super_classify envEmpty s3 false 2 none (.functionDef 4 "m" "classmethod" [] "") =
      .ok [.boundMethod (.functionDef 4 "m" "classmethod" [] "") (.classNode 2)]
    ∧ super_classify envEmpty s3 false 2 none (.other 5) = .ok [.other 5] := by
  constructor
  · exact (claim_c4 envEmpty s3 false 2 none 4 "m" "classmethod" [] "" (.other 5)).1 rfl
  · exact (claim_c4 envEmpty s3 false 2 none 4 "m" "classmethod" [] "" (.other 5)).2.2.2.2.2.2
      (by intro a b c d e h; cases h)

/-- C6, counterexample: in `envC`, class 0's `__bool__` resolves to a
non-callable value, i.e. the "confirm it is callable" step of the probe
fails — yet `bool_value()` returns `Uninferable` instead of falling back,
although the `__len__` probe (the claimed fallback) would have produced
`False`.  A failure along the probe's chain is therefore not always
treated as fallback. -/
theorem claim_c6_counterexample :
    Instance.bool_value envC 0 = .ok .pyUninferable
    ∧ infer_method_result_truth envC 0 "__len__" (bool_value_context 0) = .ok .pyFalse
    ∧ node_callable envC (.instanceN 1) = .ok false :=
  ⟨rfl, rfl, rfl⟩

/-- C6, amended: `bool_value()` probes `__bool__` first; a probe failure
that raises `InferenceError` or `AttributeInferenceError` is swallowed —
the first probe's error triggers the `__len__` fallback and the second
probe's error yields the default `True` — while a probe that returns a
result (including the soft failures that produce `Uninferable`, such as a
non-callable method) is final; for a class defining neither method,
`bool_value()` returns `True` for every instance. -/
theorem claim_c6 (env : Env) (self : ClassId) :
    (∀ r, infer_method_result_truth env self BOOL_SPECIAL_METHOD
        (bool_value_context self) = .ok r →
      Instance.bool_value env self = .ok r)
    ∧ (∀ e r, infer_method_result_truth env self BOOL_SPECIAL_METHOD
        (bool_value_context self) = .error e →
        (e.isInferenceError || e.isAttributeInferenceError) = true →
        infer_method_result_truth env self "__len__" (bool_value_context self) = .ok r →
      Instance.bool_value env self = .ok r)
    ∧ (∀ e e2, infer_method_result_truth env self BOOL_SPECIAL_METHOD
        (bool_value_context self) = .error e →
        (e.isInferenceError || e.isAttributeInferenceError) = true →
        infer_method_result_truth env self "__len__" (bool_value_context self) = .error e2 →
        (e2.isAttributeInferenceError || e2.isInferenceError) = true →
      Instance.bool_value env self = .ok .pyTrue)
    ∧ ((∀ c, env.instance_attr self BOOL_SPECIAL_METHOD c =
          .error (.attributeInferenceError none)) →
       (∀ c, env.cls_igetattr self BOOL_SPECIAL_METHOD c =
          .error (.attributeInferenceError none)) →
       (∀ c, env.instance_attr self "__len__" c =
          .error (.attributeInferenceError none)) →
       (∀ c, env.cls_igetattr self "__len__" c =
          .error (.attributeInferenceError none)) →
       lookupSpecial env.instance_special_attributes BOOL_SPECIAL_METHOD = none →
       lookupSpecial env.instance_special_attributes "__len__" = none →
      Instance.bool_value env self = .ok .pyTrue) := by
  have himrt : ∀ (name : String),
      (∀ c, env.instance_attr self name c = .error (.attributeInferenceError none)) →
      (∀ c, env.cls_igetattr self name c = .error (.attributeInferenceError none)) →
      lookupSpecial env.instance_special_attributes name = none →
      infer_method_result_truth env self name (bool_value_context self) =
        .error (.inferenceError (some (.attributeInferenceError none))) := by
    intro name hi hc hs
    simp [infer_method_result_truth, igetattr, Ctx.push, bool_value_context,
      igetattr_first_path, getattr, hi, hs, Exc.isAttributeInferenceError,
      igetattr_fallback, hc]
  refine ⟨?_, ?_, ?_, ?_⟩
  · intro r h
    simp [Instance.bool_value, h]
  · intro e r h1 h2 h3
    simp [Instance.bool_value, h1, h2, h3]
  · intro e e2 h1 h2 h3 h4
    simp [Instance.bool_value, h1, h2, h3, h4]
  · intro hb1 hb2 hl1 hl2 hs1 hs2
    have e1 := himrt BOOL_SPECIAL_METHOD hb1 hb2 hs1
    have e2 := himrt "__len__" hl1 hl2 hs2
    simp [Instance.bool_value, e1, e2, Exc.isInferenceError]

theorem claim_c6_witness : Instance.bool_value envEmpty 0 = .ok .pyTrue :=
  (claim_c6 envEmpty 0).2.2.2 (fun _ => rfl) (fun _ => rfl) (fun _ => rfl)
    (fun _ => rfl) rfl rfl

end Astroid
